import Mathlib

/-!
Verification development for the redirector repository: a local DNS-less
load balancer that rewrites a delimiter-marked block of the system
host-resolution file according to backend health.

The Lean definitions below are shallow embeddings of the Python sources:

* `redirector/strategies.py` — `SequentialStrategy` / `RandomStrategy`
  become explicit state-passing functions (`seq_next_host`,
  `rand_next_host`); the calls to `random.randint` in `RandomStrategy`
  become an explicit list of supplied roll values, and the re-roll
  `while` loop becomes the structurally recursive `reroll`, returning
  `none` when the roll list is exhausted (modelling non-termination of
  the loop).
* `redirector/loadbalancer.py` — the body of `LoadBalancer.run` becomes
  the step function `lb_step` on an explicit worker state; the strategy
  object is passed as an abstract state-transition function, matching
  the dynamic dispatch of the Python code.
* `redirector/healthchecks/tcp.py` and `http.py` — `is_alive` becomes a
  function over an explicit outcome type enumerating the possible
  results of the underlying network operation; the caught Python
  exceptions appear as outcome constructors, and exceptions the code
  does not catch appear as `Except.error` results.
* `redirector/core.py` and `redirector/cli.py` — the consumer loop,
  `_do_stop`, `_initialise_components` and `signal_handler` become
  functions producing explicit action traces / `Except` results.
* `redirector/hostsmanager.py` is not present under `src/` (only its
  unit tests are); its atomic rewrite protocol is modelled from the
  specification, as marked on the definitions concerned.
-/

/-! ## Strategies (`redirector/strategies.py`) -/

/-- State of `SequentialStrategy`: the backend host list (`self._hosts`)
and the cursor (`self._next_index`, initialised to 0). -/
structure SeqState where
  hosts : List String
  next_index : Nat
deriving DecidableEq

/-- `SequentialStrategy.next_host`: return `self._hosts[self._next_index]`,
then advance the cursor modulo the pool size.  The in-bounds list access
of the Python code is rendered with `List.getD`; the strategy maintains
the invariant `next_index < hosts.length` for non-empty pools. -/
def seq_next_host (s : SeqState) : String × SeqState :=
  (s.hosts.getD s.next_index "",
   { hosts := s.hosts, next_index := (s.next_index + 1) % s.hosts.length })

/-- The strategy state after `k` calls to `next_host`, starting from the
freshly constructed state with cursor 0. -/
def seq_state_at (hosts : List String) : Nat → SeqState
  | 0 => { hosts := hosts, next_index := 0 }
  | k + 1 => (seq_next_host (seq_state_at hosts k)).2

/-- The value returned by the `(k+1)`-th call to `next_host`. -/
def seq_output (hosts : List String) (k : Nat) : String :=
  (seq_next_host (seq_state_at hosts k)).1

/-- State of `RandomStrategy`: the backend host list and the index of the
host the next call will return (`self._next_index`, initialised by
`random.randint(0, len(hosts) - 1)`). -/
structure RandState where
  hosts : List String
  next_index : Nat
deriving DecidableEq

/-- The `while next_candidate_index == self._next_index` re-roll loop of
`RandomStrategy.next_host`: successive `random.randint` results are
supplied as an explicit list, and the loop returns the first one that
differs from the current index (`none` models a roll list too short for
the loop to terminate). -/
def reroll (cur : Nat) : List Nat → Option Nat
  | [] => none
  | r :: rs => if r = cur then reroll cur rs else some r

/-- `RandomStrategy.next_host`: return `self._hosts[self._next_index]`;
when the pool has more than one member, re-roll until the candidate
index differs from the current one and store it as the new index. -/
def rand_next_host (s : RandState) (rolls : List Nat) :
    Option (String × RandState) :=
  let nh := s.hosts.getD s.next_index ""
  if 1 < s.hosts.length then
    match reroll s.next_index rolls with
    | none => none
    | some j => some (nh, { hosts := s.hosts, next_index := j })
  else
    some (nh, s)

/-! Helper lemmas about the sequential strategy. -/

theorem seq_state_at_hosts (hosts : List String) (k : Nat) :
    (seq_state_at hosts k).hosts = hosts := by
  induction k with
  | zero => rfl
  | succ k ih => simp [seq_state_at, seq_next_host, ih]

theorem seq_state_at_index (hosts : List String) (k : Nat) :
    (seq_state_at hosts k).next_index = k % hosts.length := by
  induction k with
  | zero => simp [seq_state_at]
  | succ k ih =>
    simp only [seq_state_at, seq_next_host, seq_state_at_hosts, ih]
    exact Nat.mod_add_mod k hosts.length 1

theorem seq_output_eq (hosts : List String) (k : Nat) :
    seq_output hosts k = hosts.getD (k % hosts.length) "" := by
  simp [seq_output, seq_next_host, seq_state_at_hosts, seq_state_at_index]

/-- C4: for every non-empty backend pool, the sequential strategy's
`next_host` returns the entry at a cursor advancing modulo the pool
size: the first call returns index 0, the `(k+1)`-th call returns the
entry at index `k % len`, `len` consecutive calls from the start return
each pool member exactly once in original order, and the output sequence
is periodic with period `len`. -/
theorem sequential_round_robin (hosts : List String) (hne : hosts ≠ [])
    (k : Nat) :
    seq_output hosts 0 = hosts.getD 0 "" ∧
    seq_output hosts k = hosts.getD (k % hosts.length) "" ∧
    (List.range hosts.length).map (seq_output hosts) = hosts ∧
    seq_output hosts (k + hosts.length) = seq_output hosts k := by
  have hlen : 0 < hosts.length := List.length_pos.mpr hne
  refine ⟨?_, seq_output_eq hosts k, ?_, ?_⟩
  · simp [seq_output_eq, Nat.zero_mod]
  · apply List.ext_getElem
    · simp
    · intro i h1 h2
      have hi : i < hosts.length := by simpa using h2
      simp [seq_output_eq, Nat.mod_eq_of_lt hi,
        List.getD_eq_getElem?_getD, List.getElem?_eq_getElem hi]
  · simp [seq_output_eq, Nat.add_mod_right]

/-- Witness for C4 at the concrete pool `["h1", "h2"]` and `k = 3`. -/
theorem sequential_round_robin_witness :
    seq_output ["h1", "h2"] 0 = (["h1", "h2"] : List String).getD 0 "" ∧
    seq_output ["h1", "h2"] 3 =
      (["h1", "h2"] : List String).getD (3 % 2) "" ∧
    (List.range 2).map (seq_output ["h1", "h2"]) = ["h1", "h2"] ∧
    seq_output ["h1", "h2"] (3 + 2) = seq_output ["h1", "h2"] 3 :=
  sequential_round_robin ["h1", "h2"] (by decide) 3

/-! Helper lemmas about the random strategy's re-roll loop. -/

theorem getD_eq_getElem_of_lt (l : List String) (i : Nat)
    (h : i < l.length) : l.getD i "" = l[i] := by
  simp [List.getD_eq_getElem?_getD, List.getElem?_eq_getElem h]

theorem reroll_ne (cur : Nat) (rolls : List Nat) (j : Nat)
    (h : reroll cur rolls = some j) : j ≠ cur := by
  induction rolls with
  | nil => simp [reroll] at h
  | cons r rs ih =>
    by_cases hr : r = cur
    · exact ih (by simpa [reroll, hr] using h)
    · simp [reroll, hr] at h
      omega

theorem reroll_mem (cur : Nat) (rolls : List Nat) (j : Nat)
    (h : reroll cur rolls = some j) : j ∈ rolls := by
  induction rolls with
  | nil => simp [reroll] at h
  | cons r rs ih =>
    by_cases hr : r = cur
    · exact List.mem_cons_of_mem r (ih (by simpa [reroll, hr] using h))
    · simp [reroll, hr] at h
      simp [h]

/-- C5 counterexample: in the pool `["a", "a"]` of size 2 the random
strategy returns the value `"a"` on two consecutive calls, because the
re-roll loop only avoids repeating the *index*, not the value. -/
theorem random_repeat_value_cex :
    1 < (["a", "a"] : List String).length ∧
    rand_next_host { hosts := ["a", "a"], next_index := 0 } [1]
      = some ("a", { hosts := ["a", "a"], next_index := 1 }) ∧
    rand_next_host { hosts := ["a", "a"], next_index := 1 } [0]
      = some ("a", { hosts := ["a", "a"], next_index := 0 }) := by
  refine ⟨by decide, ?_, ?_⟩ <;> rfl

/-- C5 (amended): every value the random strategy returns is a pool
member; a pool of size 1 always yields its single member; and when the
pool has more than one member and its entries are pairwise distinct, two
consecutive calls never return the same value (without distinctness only
the selected *index* is guaranteed to change). -/
theorem random_no_consecutive_repeat {s s₁ s₂ : RandState}
    {rolls rolls₁ : List Nat} {v v₁ : String}
    (hidx : s.next_index < s.hosts.length)
    (hrolls : ∀ r ∈ rolls, r < s.hosts.length)
    (h1 : rand_next_host s rolls = some (v, s₁))
    (h2 : rand_next_host s₁ rolls₁ = some (v₁, s₂)) :
    v ∈ s.hosts ∧
    (s.hosts.length = 1 → v = s.hosts.getD 0 "") ∧
    (1 < s.hosts.length → s.hosts.Nodup → v ≠ v₁) := by
  have hv : v = s.hosts.getD s.next_index "" := by
    by_cases hlen : 1 < s.hosts.length
    · rcases hj : reroll s.next_index rolls with _ | j
      · simp [rand_next_host, hlen, hj] at h1
      · simp [rand_next_host, hlen, hj] at h1
        rw [List.getD_eq_getElem?_getD]
        exact h1.1.symm
    · simp [rand_next_host, hlen] at h1
      rw [List.getD_eq_getElem?_getD]
      exact h1.1.symm
  refine ⟨?_, ?_, ?_⟩
  · rw [hv, getD_eq_getElem_of_lt _ _ hidx]
    exact List.getElem_mem hidx
  · intro hone
    rw [hv]
    have : s.next_index = 0 := by omega
    rw [this]
  · intro hlen hnd
    rcases hj : reroll s.next_index rolls with _ | j
    · simp [rand_next_host, hlen, hj] at h1
    · simp [rand_next_host, hlen, hj] at h1
      have hs₁ : s₁ = { hosts := s.hosts, next_index := j } := h1.2.symm
      have hjlt : j < s.hosts.length := hrolls j (reroll_mem _ _ _ hj)
      have hjne : j ≠ s.next_index := reroll_ne _ _ _ hj
      have hlen₁ : 1 < s₁.hosts.length := by rw [hs₁]; exact hlen
      have hv₁ : v₁ = s₁.hosts.getD s₁.next_index "" := by
        rcases hj₁ : reroll s₁.next_index rolls₁ with _ | j₁
        · simp [rand_next_host, hlen₁, hj₁] at h2
        · simp [rand_next_host, hlen₁, hj₁] at h2
          rw [List.getD_eq_getElem?_getD]
          exact h2.1.symm
      rw [hv, hv₁, hs₁]
      simp only
      rw [getD_eq_getElem_of_lt _ _ hidx, getD_eq_getElem_of_lt _ _ hjlt]
      intro heq
      exact hjne ((List.Nodup.getElem_inj_iff hnd).mp heq.symm)

/-- Witness for C5 (amended) at the concrete pool `["a", "b"]`. -/
theorem random_no_consecutive_repeat_witness :
    "a" ∈ (["a", "b"] : List String) ∧
    ((["a", "b"] : List String).length = 1 →
      "a" = (["a", "b"] : List String).getD 0 "") ∧
    (1 < (["a", "b"] : List String).length →
      (["a", "b"] : List String).Nodup → "a" ≠ "b") := by
  have h := @random_no_consecutive_repeat
    { hosts := ["a", "b"], next_index := 0 }
    { hosts := ["a", "b"], next_index := 1 }
    { hosts := ["a", "b"], next_index := 0 }
    [1] [0] "a" "b" (by decide) (by decide) (by rfl) (by rfl)
  exact h

/-! ## Load-balancer worker (`redirector/loadbalancer.py`) -/

/-- The local variables of `LoadBalancer.run`: the strategy object's
state (`σ` abstracts over the concrete strategy, matching the dynamic
dispatch of the Python code), `backend_host`, the `backend_changed`
dirty flag, and the `timeout` passed to the next `Event.wait`.  The
`period` configuration value is a float in Python; timeouts are rendered
as rationals since the code only ever assigns the constants 0 and 1 or
the configured period to them. -/
structure LBState (σ : Type) where
  strat : σ
  backend_host : String
  backend_changed : Bool
  timeout : ℚ
deriving DecidableEq

/-- One iteration of the `while not self._stop_event.wait(timeout)` loop
of `LoadBalancer.run`, given the probe result `alive` for the current
backend: if the backend is not alive, take the strategy's next host,
set the dirty flag and `timeout = 1`; then, if the dirty flag is set
and the backend is alive, put `(local_host, backend_host)` on the
queue, clear the flag, and set `timeout` to the healthcheck period.
Returns the updated state and the optional queue emission. -/
def lb_step {σ : Type} (next : σ → String × σ) (period : ℚ)
    (local_host : String) (s : LBState σ) (alive : Bool) :
    LBState σ × Option (String × String) :=
  let s1 := if alive then s else
    { strat := (next s.strat).2, backend_host := (next s.strat).1,
      backend_changed := true, timeout := 1 }
  if s1.backend_changed && alive then
    ({ s1 with backend_changed := false, timeout := period },
     some (local_host, s1.backend_host))
  else
    (s1, none)

/-- The state at the top of `LoadBalancer.run`: `timeout = 0`,
`backend_changed = True`, and `backend_host` freshly selected by the
strategy. -/
def lb_init {σ : Type} (next : σ → String × σ) (strat0 : σ) : LBState σ :=
  { strat := (next strat0).2, backend_host := (next strat0).1,
    backend_changed := true, timeout := 0 }

/-- Run the worker loop over a finite list of probe results, collecting
the queue emissions in order. -/
def lb_exec {σ : Type} (next : σ → String × σ) (period : ℚ)
    (local_host : String) :
    LBState σ → List Bool → LBState σ × List (String × String)
  | s, [] => (s, [])
  | s, a :: rest =>
    let step := lb_step next period local_host s a
    let tail := lb_exec next period local_host step.1 rest
    (tail.1, step.2.toList ++ tail.2)

/-- A worker state is reachable when some finite sequence of probe
results leads to it from the initial state. -/
def lb_reachable {σ : Type} (next : σ → String × σ) (period : ℚ)
    (local_host : String) (strat0 : σ) (s : LBState σ) : Prop :=
  ∃ inputs : List Bool,
    (lb_exec next period local_host (lb_init next strat0) inputs).1 = s

/-- The loop invariant: whenever the dirty flag is clear, the wait
timeout equals the configured healthcheck period. -/
def lb_inv {σ : Type} (period : ℚ) (s : LBState σ) : Prop :=
  s.backend_changed = false → s.timeout = period

theorem lb_step_inv {σ : Type} (next : σ → String × σ) (period : ℚ)
    (local_host : String) (s : LBState σ) (a : Bool) (h : lb_inv period s) :
    lb_inv period (lb_step next period local_host s a).1 := by
  cases a <;> rcases hc : s.backend_changed <;>
    simp_all [lb_step, lb_inv]

theorem lb_exec_inv {σ : Type} (next : σ → String × σ) (period : ℚ)
    (local_host : String) (inputs : List Bool) :
    ∀ s : LBState σ, lb_inv period s →
      lb_inv period (lb_exec next period local_host s inputs).1 := by
  induction inputs with
  | nil => intro s h; exact h
  | cons a rest ih =>
    intro s h
    exact ih _ (lb_step_inv next period local_host s a h)

theorem lb_reachable_inv {σ : Type} {next : σ → String × σ} {period : ℚ}
    {local_host : String} {strat0 : σ} {s : LBState σ}
    (h : lb_reachable next period local_host strat0 s) :
    lb_inv period s := by
  rcases h with ⟨inputs, hs⟩
  rw [← hs]
  apply lb_exec_inv
  intro hinit
  simp [lb_init] at hinit

/-- C7: in every iteration of the worker loop, from any reachable state:
a dead probe makes the worker take the strategy's next host, set the
dirty flag, set `timeout = 1`, and emit nothing; a live probe with the
dirty flag set makes it emit `(local_host, current_backend)`, clear the
flag, and set `timeout` to the configured period; a live probe with the
flag clear changes nothing, emits nothing, and leaves the timeout at the
period. -/
theorem lb_step_behaviour {σ : Type} (next : σ → String × σ) (period : ℚ)
    (local_host : String) (strat0 : σ) (s : LBState σ)
    (hreach : lb_reachable next period local_host strat0 s) (alive : Bool) :
    (alive = false →
      (lb_step next period local_host s alive).1
        = { strat := (next s.strat).2, backend_host := (next s.strat).1,
            backend_changed := true, timeout := 1 } ∧
      (lb_step next period local_host s alive).2 = none) ∧
    (alive = true → s.backend_changed = true →
      (lb_step next period local_host s alive).2
          = some (local_host, s.backend_host) ∧
      (lb_step next period local_host s alive).1.backend_changed = false ∧
      (lb_step next period local_host s alive).1.timeout = period ∧
      (lb_step next period local_host s alive).1.backend_host
          = s.backend_host) ∧
    (alive = true → s.backend_changed = false →
      (lb_step next period local_host s alive).2 = none ∧
      (lb_step next period local_host s alive).1 = s ∧
      s.timeout = period) := by
  refine ⟨?_, ?_, ?_⟩
  · rintro rfl
    simp [lb_step]
  · rintro rfl hc
    simp [lb_step, hc]
  · rintro rfl hc
    refine ⟨?_, ?_, lb_reachable_inv hreach hc⟩ <;> simp [lb_step, hc]

/-- Witness for C7: the initial state of a worker over the pool
`["a", "b"]` with the sequential strategy and period 5 is reachable (by
the empty probe sequence), and a live probe there emits the first
backend. -/
theorem lb_step_behaviour_witness :
    (lb_step seq_next_host (5 : ℚ) "lh"
        (lb_init seq_next_host ({ hosts := ["a", "b"], next_index := 0 } :
          SeqState)) true).2
      = some ("lh", "a") := by
  have h := lb_step_behaviour seq_next_host (5 : ℚ) "lh"
    ({ hosts := ["a", "b"], next_index := 0 } : SeqState)
    (lb_init seq_next_host { hosts := ["a", "b"], next_index := 0 })
    ⟨[], rfl⟩ true
  exact (h.2.1 rfl rfl).1

/-- C3 (amended): a worker emits on a loop iteration exactly when the
probe reports the backend alive and the dirty flag is set, and the
emission carries the current backend; the dirty flag after the
iteration is set exactly when the probe failed, because a failed probe
re-selects via the strategy even when the strategy returns the same
host again. -/
theorem lb_emission_iff_dirty_alive {σ : Type} (next : σ → String × σ)
    (period : ℚ) (local_host : String) (s : LBState σ) (alive : Bool) :
    (lb_step next period local_host s alive).2
        = (if alive && s.backend_changed
            then some (local_host, s.backend_host) else none) ∧
    (lb_step next period local_host s alive).1.backend_changed = !alive := by
  cases alive <;> rcases hc : s.backend_changed <;> simp [lb_step, hc]

/-- C3 counterexample: a worker over the single-host pool `["a"]` whose
probe results are live, dead, live emits `("lh", "a")` twice, while the
selected backend value is `"a"` in every state along the trace — two
consecutive emissions carry the same backend host although the value of
`current_backend` never changed. -/
theorem lb_same_backend_reemitted_cex :
    (lb_exec seq_next_host (7 : ℚ) "lh"
        (lb_init seq_next_host { hosts := ["a"], next_index := 0 })
        [true, false, true]).2
      = [("lh", "a"), ("lh", "a")] ∧
    (lb_init seq_next_host ({ hosts := ["a"], next_index := 0 } :
        SeqState)).backend_host = "a" ∧
    (lb_exec seq_next_host (7 : ℚ) "lh"
        (lb_init seq_next_host { hosts := ["a"], next_index := 0 })
        [true]).1.backend_host = "a" ∧
    (lb_exec seq_next_host (7 : ℚ) "lh"
        (lb_init seq_next_host { hosts := ["a"], next_index := 0 })
        [true, false]).1.backend_host = "a" ∧
    (lb_exec seq_next_host (7 : ℚ) "lh"
        (lb_init seq_next_host { hosts := ["a"], next_index := 0 })
        [true, false, true]).1.backend_host = "a" := by
  refine ⟨?_, ?_, ?_, ?_, ?_⟩ <;> rfl

/-! ## Orchestrator (`redirector/core.py`) and CLI (`redirector/cli.py`) -/

/-- The externally observable actions of `Redirector.run` and
`Redirector._do_stop`, in the order the code performs them:
`_queue.get` items passed to `HostsManager.upsert_entry`, `lb.stop()`
and `lb.join()` calls, `remove_redirector_block()`, and removal of the
PID file. -/
inductive RAction where
  | upsert (local_host backend_host : String)
  | stop_lb (name : String)
  | join_lb (name : String)
  | remove_block
  | remove_pid
deriving DecidableEq

/-- The part of the core configuration `Redirector._do_stop` and
`Redirector.run` consult: the names of the constructed load balancers
(iteration order of `self._load_balancers`), the `persist_hosts_block`
flag, and the optional `pid_file` path. -/
structure RedConfig where
  lb_names : List String
  persist_hosts_block : Bool
  pid_file : Option String
deriving DecidableEq

/-- One observation of the consumer loop's `self._queue.get(timeout=1)`:
either the one-second timeout elapsed (`queue.Empty`), or an event
`(local_host, backend_host)` was received whose `upsert_entry` call
either succeeds (`ok = true`) or raises `HostsManagerError`
(`ok = false`). -/
inductive QEvent where
  | timeout_empty
  | item (local_host backend_host : String) (ok : Bool)
deriving DecidableEq

/-- Whether an observation makes `upsert_entry` raise
`HostsManagerError`. -/
def QEvent.is_fatal : QEvent → Bool
  | QEvent.item _ _ false => true
  | _ => false

/-- `Redirector._do_stop`: stop every load balancer, then join every
load balancer, then remove the redirector block when
`persist_hosts_block` is disabled, then remove the PID file when one is
configured. -/
def do_stop (cfg : RedConfig) : List RAction :=
  cfg.lb_names.map RAction.stop_lb
    ++ cfg.lb_names.map RAction.join_lb
    ++ (if cfg.persist_hosts_block then [] else [RAction.remove_block])
    ++ (match cfg.pid_file with
        | some _ => [RAction.remove_pid]
        | none => [])

/-- The `while self._run` consumer loop of `Redirector.run` over a
finite list of queue observations (list exhaustion models an external
`stop()` flipping `self._run`): `queue.Empty` is passed over, a
successful `upsert_entry` continues the loop, and a
`HostsManagerError` logs critically, sets `self._run = False`, and so
stops the loop. -/
def consume : List QEvent → List RAction
  | [] => []
  | QEvent.timeout_empty :: es => consume es
  | QEvent.item lh bh true :: es => RAction.upsert lh bh :: consume es
  | QEvent.item lh bh false :: _ => [RAction.upsert lh bh]

/-- `Redirector.run` after the workers are started: drain the queue
until stopped, then perform `_do_stop`. -/
def redirector_run (cfg : RedConfig) (events : List QEvent) : List RAction :=
  consume events ++ do_stop cfg

theorem consume_until_fatal (lh bh : String) (post : List QEvent) :
    ∀ pre : List QEvent, (∀ e ∈ pre, e.is_fatal = false) →
      consume (pre ++ QEvent.item lh bh false :: post)
        = consume pre ++ [RAction.upsert lh bh] := by
  intro pre
  induction pre with
  | nil => intro _; rfl
  | cons e rest ih =>
    intro h
    have he : e.is_fatal = false := h e (List.mem_cons_self e rest)
    have hrest : ∀ x ∈ rest, x.is_fatal = false := by
      intro x hx
      exact h x (List.mem_cons_of_mem e hx)
    rcases e with _ | ⟨lh₁, bh₁, ok⟩
    · simpa [consume] using ih hrest
    · rcases ok with _ | _
      · simp [QEvent.is_fatal] at he
      · simpa [consume] using ih hrest

/-- C8: when `upsert_entry` raises `HostsManagerError` at some point of
the consumer loop, the loop stops (later queue observations are never
processed) and the action trace ends with the full shutdown sequence in
order: stop every worker, then join every worker, then remove the
persisted block when persistence across restarts is disabled, then
remove the PID marker. -/
theorem shutdown_order (cfg : RedConfig) (pre post : List QEvent)
    (lh bh : String) (hpre : ∀ e ∈ pre, e.is_fatal = false) :
    redirector_run cfg (pre ++ QEvent.item lh bh false :: post)
      = consume pre ++ [RAction.upsert lh bh]
        ++ cfg.lb_names.map RAction.stop_lb
        ++ cfg.lb_names.map RAction.join_lb
        ++ (if cfg.persist_hosts_block then [] else [RAction.remove_block])
        ++ (match cfg.pid_file with
            | some _ => [RAction.remove_pid]
            | none => []) := by
  unfold redirector_run do_stop
  rw [consume_until_fatal lh bh post pre hpre]
  simp [List.append_assoc]

/-- Witness for C8 with two workers, persistence disabled, and a PID
file configured: the fatal upsert after one successful one yields the
full ordered shutdown trace. -/
theorem shutdown_order_witness :
    redirector_run
        { lb_names := ["w1", "w2"], persist_hosts_block := false,
          pid_file := some "/run/redirector.pid" }
        ([QEvent.timeout_empty, QEvent.item "h" "b" true]
          ++ QEvent.item "x" "y" false :: [QEvent.item "p" "q" true])
      = consume [QEvent.timeout_empty, QEvent.item "h" "b" true]
          ++ [RAction.upsert "x" "y"]
          ++ (["w1", "w2"] : List String).map RAction.stop_lb
          ++ (["w1", "w2"] : List String).map RAction.join_lb
          ++ (if false then [] else [RAction.remove_block])
          ++ (match (some "/run/redirector.pid" : Option String) with
              | some _ => [RAction.remove_pid]
              | none => []) :=
  shutdown_order
    { lb_names := ["w1", "w2"], persist_hosts_block := false,
      pid_file := some "/run/redirector.pid" }
    [QEvent.timeout_empty, QEvent.item "h" "b" true]
    [QEvent.item "p" "q" true] "x" "y" (by decide)

/-- The methods the `Redirector` class in `redirector/core.py` defines
(no others are inherited beyond `object`). -/
def redirector_method_names : List String :=
  ["__init__", "_setup_logging", "_initialise_components", "initialise",
   "_do_stop", "run", "stop"]

/-- Python exceptions appearing in the embedding: `AttributeError` from
looking up a missing attribute, `re.error` from compiling an invalid
regular expression, and `UnicodeDecodeError` from `bytes.decode`. -/
inductive PyExc where
  | attribute_error
  | re_error
  | unicode_decode_error
deriving DecidableEq

/-- Python attribute lookup on a `Redirector` instance: a method call
`redirector.<name>()` raises `AttributeError` unless the class defines
`<name>`. -/
def call_redirector_method (name : String) : Except PyExc String :=
  if name ∈ redirector_method_names then Except.ok name
  else Except.error PyExc.attribute_error

/-- The signals `redirector/cli.py` wires in `main`. -/
inductive PySignal where
  | sigint
  | sigterm
  | sighup
deriving DecidableEq

/-- `signal_handler` from `redirector/cli.py`: SIGINT and SIGTERM call
`redirector.stop()`; SIGHUP calls `redirector.reload()`. -/
def signal_handler (signum : PySignal) : Except PyExc String :=
  match signum with
  | PySignal.sigint => call_redirector_method "stop"
  | PySignal.sigterm => call_redirector_method "stop"
  | PySignal.sighup => call_redirector_method "reload"

/-- C9: the `Redirector` class defines no `reload` method, so the
SIGHUP branch of `signal_handler` — the only caller of the documented
reload entry point — raises `AttributeError`, while the stop entry
point invoked for SIGINT and SIGTERM exists and succeeds. -/
theorem reload_missing_attribute :
    ("reload" ∈ redirector_method_names) = False ∧
    signal_handler PySignal.sighup = Except.error PyExc.attribute_error ∧
    signal_handler PySignal.sigint = Except.ok "stop" ∧
    signal_handler PySignal.sigterm = Except.ok "stop" := by
  refine ⟨by simp [redirector_method_names], ?_, ?_, ?_⟩ <;> rfl

/-- The fields of a validated per-service configuration document that
`Redirector._initialise_components` consults. -/
structure LBConfigDoc where
  name : String
  local_host : String
deriving DecidableEq

/-- `ConfigLoader.load_lb_configs` on a service directory that exists:
it yields one validated document per configuration file and raises no
error when the directory holds no configuration files — an empty
service directory passes configuration validation with zero
documents. -/
def load_lb_configs (docs : List LBConfigDoc) : Except Unit (List LBConfigDoc) :=
  Except.ok docs

/-- The `for config in self._configloader.load_lb_configs()` loop of
`Redirector._initialise_components`: reject a duplicate load-balancer
name with `RuntimeError`, otherwise record the constructed load
balancer under its name and append its `local_host` to the expected
hostnames. Returns the load-balancer names and expected hostnames
accumulated so far. -/
def build_load_balancers :
    List LBConfigDoc → List String → List String →
      Except Unit (List String × List String)
  | [], lbs, expected => Except.ok (lbs, expected)
  | c :: cs, lbs, expected =>
    if c.name ∈ lbs then Except.error ()
    else build_load_balancers cs (lbs ++ [c.name]) (expected ++ [c.local_host])

/-- `Redirector._initialise_components` after `load_persisted_entries`:
build the load balancers, then raise `RuntimeError` when none was
configured. -/
def initialise_components (docs : List LBConfigDoc) :
    Except Unit (List String × List String) :=
  match build_load_balancers docs [] [] with
  | Except.error e => Except.error e
  | Except.ok (lbs, expected) =>
    if lbs.length = 0 then Except.error () else Except.ok (lbs, expected)

/-- The start-up flow of `cli.main` and `Redirector.run`: the workers
are started only when `initialise` succeeded; an initialisation error
exits before any `lb.start()` call, so the started-worker list is
empty on the error path. -/
def redirector_started_workers (docs : List LBConfigDoc) : List String :=
  match initialise_components docs with
  | Except.error _ => []
  | Except.ok (lbs, _) => lbs

theorem build_load_balancers_ok_names (docs : List LBConfigDoc) :
    ∀ (lbs expected lbs₁ expected₁ : List String),
      build_load_balancers docs lbs expected = Except.ok (lbs₁, expected₁) →
      lbs₁ = lbs ++ docs.map LBConfigDoc.name := by
  induction docs with
  | nil =>
    intro lbs expected lbs₁ expected₁ h
    simp [build_load_balancers] at h
    simp [h.1]
  | cons c cs ih =>
    intro lbs expected lbs₁ expected₁ h
    by_cases hc : c.name ∈ lbs
    · simp [build_load_balancers, hc] at h
    · simp only [build_load_balancers, if_neg hc] at h
      rw [ih _ _ _ _ h]
      simp

/-- C10: with an empty service directory configuration loading yields
zero documents without a validation error, yet `_initialise_components`
fails with `RuntimeError` before any worker exists and no worker is
ever started; more generally, whenever initialisation succeeds the
constructed worker set is exactly one per document and in particular
non-empty. -/
theorem no_empty_worker_set (docs : List LBConfigDoc)
    (lbs expected : List String)
    (hok : initialise_components docs = Except.ok (lbs, expected)) :
    lbs = docs.map LBConfigDoc.name ∧ lbs ≠ [] ∧
    load_lb_configs ([] : List LBConfigDoc) = Except.ok [] ∧
    initialise_components ([] : List LBConfigDoc) = Except.error () ∧
    redirector_started_workers ([] : List LBConfigDoc) = [] := by
  refine ⟨?_, ?_, rfl, rfl, rfl⟩
  · rcases hb : build_load_balancers docs [] [] with _ | ⟨lbs₁, expected₁⟩
    · simp [initialise_components, hb] at hok
    · have := build_load_balancers_ok_names docs [] [] lbs₁ expected₁ hb
      simp only [initialise_components, hb] at hok
      by_cases hz : lbs₁.length = 0
      · simp [hz] at hok
      · simp [hz] at hok
        rw [← hok.1, this]
        simp
  · rcases hb : build_load_balancers docs [] [] with _ | ⟨lbs₁, expected₁⟩
    · simp [initialise_components, hb] at hok
    · simp only [initialise_components, hb] at hok
      by_cases hz : lbs₁.length = 0
      · simp [hz] at hok
      · simp [hz] at hok
        intro hnil
        rw [hok.1, hnil] at hz
        simp at hz

/-- Witness for C10 with the single service document `svc-a`. -/
theorem no_empty_worker_set_witness :
    (["svc-a"] : List String)
        = ([{ name := "svc-a", local_host := "app.local" }] :
            List LBConfigDoc).map LBConfigDoc.name ∧
    (["svc-a"] : List String) ≠ [] ∧
    load_lb_configs ([] : List LBConfigDoc) = Except.ok [] ∧
    initialise_components ([] : List LBConfigDoc) = Except.error () ∧
    redirector_started_workers ([] : List LBConfigDoc) = [] :=
  no_empty_worker_set [{ name := "svc-a", local_host := "app.local" }]
    ["svc-a"] ["app.local"] (by rfl)

/-! ## Health checks (`redirector/healthchecks/tcp.py`, `http.py`) -/

/-- The TCP health-check configuration (`CONFIG_SCHEMA` in `tcp.py`):
`port` and `timeout` (a float, rendered as a rational). -/
structure TcpHealthCheckConfig where
  port : Nat
  timeout : ℚ
deriving DecidableEq

/-- The possible outcomes of the `socket.connect` call in
`TcpHealthCheck.is_alive`: success, `socket.timeout`,
`socket.gaierror`, or another `OSError` carrying an errno. -/
inductive TcpOutcome where
  | connected
  | timed_out
  | gai_error
  | os_error (errno : Int)
deriving DecidableEq

/-- The distinct reason strings `TcpHealthCheck.is_alive` returns, one
constructor per f-string, carrying the interpolated values. -/
inductive TcpReason where
  | ok
  | timed_out (timeout : ℚ)
  | dns_resolution_failed
  | connection_refused
  | os_error (errno : Int)
deriving DecidableEq

/-- `errno.ECONNREFUSED` on Linux. -/
def ECONNREFUSED : Int := 111

/-- `TcpHealthCheck.is_alive`: a successful connect yields
`(True, "OK")`; every listed exception is caught and converted into
`(False, reason)` — the function is total over the outcome type. -/
def tcp_is_alive (cfg : TcpHealthCheckConfig) (o : TcpOutcome) :
    Bool × TcpReason :=
  match o with
  | TcpOutcome.connected => (true, TcpReason.ok)
  | TcpOutcome.timed_out => (false, TcpReason.timed_out cfg.timeout)
  | TcpOutcome.gai_error => (false, TcpReason.dns_resolution_failed)
  | TcpOutcome.os_error e =>
    if e = ECONNREFUSED then (false, TcpReason.connection_refused)
    else (false, TcpReason.os_error e)

/-- Regular-expression tokens for the fragment of Python `re` syntax
this development needs: literal characters, the `\d` class, and `.`. -/
inductive RTok where
  | lit (c : Char)
  | digit_class
  | any_char
deriving DecidableEq

/-- Characters that make a pattern of this fragment fail to compile:
a lone `(`, `)` or `[` is unbalanced and `*`, `+`, `?` have nothing to
repeat, so Python's `re.compile` raises `re.error` on the patterns
built from them below. -/
def is_regex_meta (c : Char) : Bool :=
  (['(', ')', '[', '*', '+', '?'] : List Char).contains c

/-- Compile a pattern string of the modelled fragment: `\d` becomes the
digit class, `.` the any-character token, other characters literals;
a pattern using one of the unsupported metacharacters or a stray
backslash escape is a compilation error (`none`), standing for
Python's `re.error`.  On every concrete pattern appearing in the
theorems below this agrees with Python's `re` module. -/
def compile_pattern : List Char → Option (List RTok)
  | [] => some []
  | '\\' :: 'd' :: rest =>
    (compile_pattern rest).map (fun ts => RTok.digit_class :: ts)
  | '\\' :: _ => none
  | '.' :: rest =>
    (compile_pattern rest).map (fun ts => RTok.any_char :: ts)
  | c :: rest =>
    if is_regex_meta c then none
    else (compile_pattern rest).map (fun ts => RTok.lit c :: ts)

/-- Whether one token matches one character. -/
def tok_matches (t : RTok) (c : Char) : Bool :=
  match t with
  | RTok.lit a => a == c
  | RTok.digit_class => c.isDigit
  | RTok.any_char => c != '\n'

/-- Whether the token list matches a prefix of the character list. -/
def match_here : List RTok → List Char → Bool
  | [], _ => true
  | _ :: _, [] => false
  | t :: ts, c :: cs => tok_matches t c && match_here ts cs

/-- `re.search` of the fragment: the pattern matches starting at some
position of the subject. -/
def re_search_from (toks : List RTok) : List Char → Bool
  | [] => match_here toks []
  | c :: cs => match_here toks (c :: cs) || re_search_from toks cs

/-- The HTTP health-check configuration fields that
`HttpHealthCheck.is_alive` consults after the response arrives
(`method`, `headers`, `scheme`, `port`, `path`, `query` and `cacerts`
only shape the request and are not observable in the checked logic;
`expected_response_encoding` keeps its schema default `utf-8`, rendered
by the ASCII fragment `decode_ascii`). -/
structure HttpHealthCheckConfig where
  timeout : ℚ
  expected_status : String
  expected_response : Option String
deriving DecidableEq

/-- The possible outcomes of the `urlopen` call in
`HttpHealthCheck.is_alive`: a completed response with status code and
raw body bytes, `urllib.error.HTTPError`, `urllib.error.URLError`, or
`socket.timeout`. -/
inductive HttpOutcome where
  | response (code : Nat) (body : List Nat)
  | http_error (code : Nat)
  | url_error (reason : String)
  | timed_out
deriving DecidableEq

/-- The distinct reason strings `HttpHealthCheck.is_alive` returns, one
constructor per f-string, carrying the interpolated values. -/
inductive HttpReason where
  | ok
  | wrong_status (got : Nat) (expected : String)
  | body_mismatch (expected : String)
  | http_error (code : Nat)
  | url_error (reason : String)
  | timed_out (timeout : ℚ)
deriving DecidableEq

/-- `bytes.decode("utf-8")` restricted to the ASCII fragment: bytes
below 128 decode to the corresponding characters, any other byte is a
`UnicodeDecodeError` (`none`).  On the concrete bodies in the theorems
below this agrees with Python. -/
def decode_ascii (bs : List Nat) : Option String :=
  if bs.all (fun b => b < 128) then
    some (String.mk (bs.map (fun b => Char.ofNat b)))
  else none

/-- `HttpHealthCheck.is_alive` on a completed network operation.  The
code calls `re.search(str(response.code), self._expected_status)` — the
status code string is the *pattern* and the configured expectation the
*subject* — and likewise `re.search(decoded_response,
self._expected_response)` with the decoded body as the pattern.  The
embedding keeps both argument orders exactly as the source has them.
`HTTPError`, `URLError` and `socket.timeout` are caught and converted
to `(False, reason)`; `re.error` from compiling either pattern and
`UnicodeDecodeError` from decoding the body are not caught and surface
as `Except.error`. -/
def http_is_alive (cfg : HttpHealthCheckConfig) (o : HttpOutcome) :
    Except PyExc (Bool × HttpReason) :=
  match o with
  | HttpOutcome.response code body =>
    match compile_pattern (toString code).data with
    | none => Except.error PyExc.re_error
    | some status_toks =>
      if re_search_from status_toks cfg.expected_status.data = false then
        Except.ok (false, HttpReason.wrong_status code cfg.expected_status)
      else
        match cfg.expected_response with
        | none => Except.ok (true, HttpReason.ok)
        | some expected =>
          match decode_ascii body with
          | none => Except.error PyExc.unicode_decode_error
          | some decoded =>
            match compile_pattern decoded.data with
            | none => Except.error PyExc.re_error
            | some body_toks =>
              if re_search_from body_toks expected.data = false then
                Except.ok (false, HttpReason.body_mismatch expected)
              else
                Except.ok (true, HttpReason.ok)
  | HttpOutcome.http_error code => Except.ok (false, HttpReason.http_error code)
  | HttpOutcome.url_error reason => Except.ok (false, HttpReason.url_error reason)
  | HttpOutcome.timed_out => Except.ok (false, HttpReason.timed_out cfg.timeout)

/-- C2: the status check of `HttpHealthCheck.is_alive` has the
`re.search` arguments swapped.  At status code 200 with the configured
expected-status pattern `2\d\d` — which, applied as a regex against the
rendered code `"200"`, matches — the code instead searches for the
pattern `"200"` inside the subject `2\d\d`, finds nothing, and reports
a wrong-status failure. -/
theorem http_status_check_swapped :
    compile_pattern "2\\d\\d".data
      = some [RTok.lit '2', RTok.digit_class, RTok.digit_class] ∧
    re_search_from [RTok.lit '2', RTok.digit_class, RTok.digit_class]
        (toString (200 : Nat)).data = true ∧
    http_is_alive
        { timeout := 10, expected_status := "2\\d\\d",
          expected_response := none }
        (HttpOutcome.response 200 [])
      = Except.ok (false, HttpReason.wrong_status 200 "2\\d\\d") := by
  refine ⟨rfl, rfl, rfl⟩

/-- C6: `HttpHealthCheck.is_alive` can propagate an exception.  With an
expected-response pattern configured and a perfectly ordinary response
body `"("` (byte 40), the swapped `re.search(decoded_response, ...)`
call compiles the body as a regular expression, which raises `re.error`
— an exception none of the `except` clauses catches, so the probe
raises instead of returning `(False, reason)`. -/
theorem http_uncaught_regex_exception :
    decode_ascii [40] = some "(" ∧
    compile_pattern "(".data = none ∧
    http_is_alive
        { timeout := 10, expected_status := "200",
          expected_response := some "hello" }
        (HttpOutcome.response 200 [40])
      = Except.error PyExc.re_error ∧
    (∀ cfg : TcpHealthCheckConfig, ∀ e : Int,
      tcp_is_alive cfg TcpOutcome.timed_out
          = (false, TcpReason.timed_out cfg.timeout) ∧
      tcp_is_alive cfg TcpOutcome.gai_error
          = (false, TcpReason.dns_resolution_failed) ∧
      tcp_is_alive cfg (TcpOutcome.os_error e)
          = (false,
             if e = ECONNREFUSED then TcpReason.connection_refused
             else TcpReason.os_error e)) := by
  refine ⟨rfl, rfl, rfl, ?_⟩
  intro cfg e
  refine ⟨rfl, rfl, ?_⟩
  by_cases he : e = ECONNREFUSED <;> simp [tcp_is_alive, he]

/-! ## HostsManager atomic rewrite (modelled from the spec) -/

/-- Modelled from the spec: `redirector/hostsmanager.py` is not present
under `src/` (only `tests/test_hostsmanager.py` is), so the permission
capture of the atomic rewrite protocol — "Capture the original file's
permission bits and owning user/group" — is modelled from the
specification and the `os.stat` fields the unit tests mock. -/
structure FileOwnerPerms where
  st_mode : Nat
  st_uid : Nat
  st_gid : Nat
deriving DecidableEq

/-- A file on disk: its content as a sequence of lines and its
permission/ownership metadata. -/
structure HostsFileState where
  content : List String
  perms : FileOwnerPerms
deriving DecidableEq

/-- The filesystem as visible to a reader of the host-resolution file:
the target file and the optional temporary file the rewrite creates. -/
structure FsState where
  target : HostsFileState
  temp : Option HostsFileState
deriving DecidableEq

/-- `tempfile.mkstemp` creates the temporary file empty with mode
`0o600`, owned by the daemon process (uid/gid 0 for a daemon mutating
the system hosts file). -/
def temp_initial_perms : FileOwnerPerms :=
  { st_mode := 384, st_uid := 0, st_gid := 0 }

/-- Modelled from the spec: the individual effects of
`HostsManager._rewrite_hosts_file` — create the temporary file in the
target's directory, write the full new content to it, apply the
captured permissions and ownership to it, and atomically replace the
target path with it (`os.replace`). -/
inductive RewriteStep where
  | mkstemp_create
  | write_temp (lines : List String)
  | chmod_chown_temp (p : FileOwnerPerms)
  | os_replace
deriving DecidableEq

/-- The effect of one rewrite step on the filesystem.  `os.replace` is
atomic: in one step the target becomes the temporary file, with the
content and metadata the temporary file has at that instant. -/
def apply_rewrite_step (fs : FsState) : RewriteStep → FsState
  | RewriteStep.mkstemp_create =>
    { fs with temp := some { content := [], perms := temp_initial_perms } }
  | RewriteStep.write_temp lines =>
    { fs with temp := fs.temp.map (fun t => { t with content := lines }) }
  | RewriteStep.chmod_chown_temp p =>
    { fs with temp := fs.temp.map (fun t => { t with perms := p }) }
  | RewriteStep.os_replace =>
    match fs.temp with
    | some t => { target := t, temp := none }
    | none => fs

/-- Modelled from the spec: the step sequence of the atomic rewrite
protocol (§4.3 steps 4–5), given the new full file content and the
captured original permissions. -/
def rewrite_hosts_file_steps (new_lines : List String)
    (orig : FileOwnerPerms) : List RewriteStep :=
  [RewriteStep.mkstemp_create, RewriteStep.write_temp new_lines,
   RewriteStep.chmod_chown_temp orig, RewriteStep.os_replace]

/-- Run a list of rewrite steps on a filesystem state. -/
def run_steps (fs : FsState) (steps : List RewriteStep) : FsState :=
  steps.foldl apply_rewrite_step fs

/-- The filesystem after the rewrite crashes having completed exactly
the first `k` of the protocol's steps. -/
def crash_after (fs : FsState) (new_lines : List String)
    (orig : FileOwnerPerms) (k : Nat) : FsState :=
  run_steps fs ((rewrite_hosts_file_steps new_lines orig).take k)

/-- The filesystem before the rewrite begins: the target file with its
original content and permissions, and no temporary file. -/
def initial_fs (old_lines : List String) (perms : FileOwnerPerms) : FsState :=
  { target := { content := old_lines, perms := perms }, temp := none }

/-- Owner-only read/write for root, mode 0o644 rendered in decimal. -/
def perms644 : FileOwnerPerms := { st_mode := 420, st_uid := 0, st_gid := 0 }

/-- C1: for a rewrite of the host-resolution file starting from any
original content and permissions, and for every crash point between
temporary-file creation and the final replace, the target file is
exactly the old content before the replace step and exactly the new
content after it — never empty (unless old or new is), truncated, or a
mixture — and its permission bits and owner never differ from the
captured originals, so a rewrite never weakens them. -/
theorem hosts_rewrite_atomicity (old_lines new_lines : List String)
    (perms : FileOwnerPerms) (k : Nat) (hk : k ≤ 4) :
    ((crash_after (initial_fs old_lines perms) new_lines perms
        k).target.content = old_lines ∨
     (crash_after (initial_fs old_lines perms) new_lines perms
        k).target.content = new_lines) ∧
    (crash_after (initial_fs old_lines perms) new_lines perms
        k).target.perms = perms ∧
    (k < 4 →
      (crash_after (initial_fs old_lines perms) new_lines perms
          k).target.content = old_lines) ∧
    (k = 4 →
      (crash_after (initial_fs old_lines perms) new_lines perms
          k).target.content = new_lines) := by
  rcases k with _ | _ | _ | _ | _ | k
  · exact ⟨Or.inl rfl, rfl, fun _ => rfl, by omega⟩
  · exact ⟨Or.inl rfl, rfl, fun _ => rfl, by omega⟩
  · exact ⟨Or.inl rfl, rfl, fun _ => rfl, by omega⟩
  · exact ⟨Or.inl rfl, rfl, fun _ => rfl, by omega⟩
  · exact ⟨Or.inr rfl, rfl, by omega, fun _ => rfl⟩
  · omega

/-- Witness for C1: a crash after the temporary file is written but
before the replace leaves the old content and permissions in place. -/
theorem hosts_rewrite_atomicity_witness :
    ((crash_after (initial_fs ["127.0.0.1 localhost"] perms644)
        ["127.0.0.1 localhost", "10.0.0.1 app.local"] perms644
        2).target.content = ["127.0.0.1 localhost"] ∨
     (crash_after (initial_fs ["127.0.0.1 localhost"] perms644)
        ["127.0.0.1 localhost", "10.0.0.1 app.local"] perms644
        2).target.content
          = ["127.0.0.1 localhost", "10.0.0.1 app.local"]) ∧
    (crash_after (initial_fs ["127.0.0.1 localhost"] perms644)
        ["127.0.0.1 localhost", "10.0.0.1 app.local"] perms644
        2).target.perms = perms644 ∧
    (2 < 4 →
      (crash_after (initial_fs ["127.0.0.1 localhost"] perms644)
          ["127.0.0.1 localhost", "10.0.0.1 app.local"] perms644
          2).target.content = ["127.0.0.1 localhost"]) ∧
    (2 = 4 →
      (crash_after (initial_fs ["127.0.0.1 localhost"] perms644)
          ["127.0.0.1 localhost", "10.0.0.1 app.local"] perms644
          2).target.content
            = ["127.0.0.1 localhost", "10.0.0.1 app.local"]) :=
  hosts_rewrite_atomicity ["127.0.0.1 localhost"]
    ["127.0.0.1 localhost", "10.0.0.1 app.local"] perms644 2 (by omega)
